import Mathlib

/-!
Verification of the account-management backend in
`Assignments/App Development/Server Files/server.py`.

The Python file is shallowly embedded below.  Machine words are `Nat`
with explicit `% 2 ^ 32` reduction, byte strings are `List Nat` (each
entry < 256), SQL rows are Lean structures, and the mutable SQLite
database is an explicit `DB` value threaded through each operation.
Ambient nondeterminism (the random salt from `secrets.token_hex(16)`,
the wall clock `CURRENT_TIMESTAMP`) is passed in as explicit arguments.
Timestamps are modelled at calendar-day granularity (a `Nat` day
number): the only arithmetic the program performs on a timestamp is
SQLite's `date(...)` comparison in `get_stats`, which is day-granular.

`hashlib.pbkdf2_hmac('sha256', password, salt, 100000)` (server.py
lines 51-56) is embedded as the real PBKDF2-HMAC-SHA-256 algorithm
(FIPS 180-4 / RFC 2104 / RFC 8018) over byte lists, with the default
derived-key length, which equals the SHA-256 digest size of 32 bytes.
-/

/-! ## 32-bit primitives -/

/-- Reduction of a `Nat` to a 32-bit machine word. -/
def w32 (n : Nat) : Nat := n % 4294967296

/-- Right rotation of a 32-bit word by `n` places. -/
def rotr32 (n x : Nat) : Nat := w32 (x / 2 ^ n + x % 2 ^ n * 2 ^ (32 - n))

/-- Logical right shift of a 32-bit word by `n` places. -/
def shr32 (n x : Nat) : Nat := x / 2 ^ n

/-- Bitwise complement of a 32-bit word. -/
def not32 (x : Nat) : Nat := x ^^^ 4294967295

/-! ## SHA-256 (FIPS 180-4), as computed by `hashlib` -/

/-- Choice function of the SHA-256 round. -/
def shaCh (x y z : Nat) : Nat := (x &&& y) ^^^ (not32 x &&& z)

/-- Majority function of the SHA-256 round. -/
def shaMaj (x y z : Nat) : Nat := (x &&& y) ^^^ (x &&& z) ^^^ (y &&& z)

/-- Upper-case sigma-0 of SHA-256. -/
def bigSigma0 (x : Nat) : Nat := rotr32 2 x ^^^ rotr32 13 x ^^^ rotr32 22 x

/-- Upper-case sigma-1 of SHA-256. -/
def bigSigma1 (x : Nat) : Nat := rotr32 6 x ^^^ rotr32 11 x ^^^ rotr32 25 x

/-- Lower-case sigma-0 of SHA-256. -/
def smallSigma0 (x : Nat) : Nat := rotr32 7 x ^^^ rotr32 18 x ^^^ shr32 3 x

/-- Lower-case sigma-1 of SHA-256. -/
def smallSigma1 (x : Nat) : Nat := rotr32 17 x ^^^ rotr32 19 x ^^^ shr32 10 x

/-- Round constants K of SHA-256. -/
def shaK : List Nat :=
  [1116352408, 1899447441, 3049323471, 3921009573, 961987163, 1508970993,
   2453635748, 2870763221, 3624381080, 310598401, 607225278, 1426881987,
   1925078388, 2162078206, 2614888103, 3248222580, 3835390401, 4022224774,
   264347078, 604807628, 770255983, 1249150122, 1555081692, 1996064986,
   2554220882, 2821834349, 2952996808, 3210313671, 3336571891, 3584528711,
   113926993, 338241895, 666307205, 773529912, 1294757372, 1396182291,
   1695183700, 1986661051, 2177026350, 2456956037, 2730485921, 2820302411,
   3259730800, 3345764771, 3516065817, 3600352804, 4094571909, 275423344,
   430227734, 506948616, 659060556, 883997877, 958139571, 1322822218,
   1537002063, 1747873779, 1955562222, 2024104815, 2227730452, 2361852424,
   2428436474, 2756734187, 3204031479, 3329325298]

/-- Working state of the SHA-256 compression function (eight 32-bit words). -/
structure Sha256State where
  a : Nat
  b : Nat
  c : Nat
  d : Nat
  e : Nat
  f : Nat
  g : Nat
  h : Nat
deriving Repr

/-- Initial hash value of SHA-256. -/
def sha256Start : Sha256State :=
  { a := 1779033703, b := 3144134277, c := 1013904242, d := 2773480762,
    e := 1359893119, f := 2600822924, g := 528734635, h := 1541459225 }

/-- Big-endian 4-byte encoding of a 32-bit word. -/
def be32 (w : Nat) : List Nat :=
  [w / 16777216 % 256, w / 65536 % 256, w / 256 % 256, w % 256]

/-- Big-endian 8-byte encoding of a 64-bit value (the padded bit length). -/
def be64 (n : Nat) : List Nat :=
  [n / 2 ^ 56 % 256, n / 2 ^ 48 % 256, n / 2 ^ 40 % 256, n / 2 ^ 32 % 256,
   n / 2 ^ 24 % 256, n / 2 ^ 16 % 256, n / 2 ^ 8 % 256, n % 256]

/-- SHA-256 padding: a 0x80 byte, zeros to 56 mod 64, then the bit length. -/
def sha256Pad (msg : List Nat) : List Nat :=
  msg ++ [128] ++ List.replicate ((119 - msg.length % 64) % 64) 0 ++ be64 (8 * msg.length)

/-- Splitting of a byte list into 64-byte blocks. -/
def chunks64 : List Nat → List (List Nat)
  | [] => []
  | b :: rest => ((b :: rest).take 64) :: chunks64 ((b :: rest).drop 64)
termination_by l => l.length
decreasing_by simp [List.length_drop]; omega

/-- Big-endian 32-bit word number `i` of a 64-byte block. -/
def blockWord (block : List Nat) (i : Nat) : Nat :=
  block.getD (4 * i) 0 * 16777216 + block.getD (4 * i + 1) 0 * 65536 +
    block.getD (4 * i + 2) 0 * 256 + block.getD (4 * i + 3) 0

/-- Message schedule W of SHA-256: the block's words for t < 16, then the
recurrence of FIPS 180-4 section 6.2.2. -/
def msgSched (m : Nat → Nat) (t : Nat) : Nat :=
  if _h16 : t < 16 then m t
  else
    w32 (smallSigma1 (msgSched m (t - 2)) + msgSched m (t - 7) +
      smallSigma0 (msgSched m (t - 15)) + msgSched m (t - 16))
termination_by t
decreasing_by all_goals omega

/-- SHA-256 compression of one 64-byte block into the running state. -/
def compressBlock (s0 : Sha256State) (block : List Nat) : Sha256State :=
  let W := msgSched (blockWord block)
  let fin := (List.range 64).foldl
    (fun s t =>
      let T1 := w32 (s.h + bigSigma1 s.e + shaCh s.e s.f s.g + shaK.getD t 0 + W t)
      let T2 := w32 (bigSigma0 s.a + shaMaj s.a s.b s.c)
      { a := w32 (T1 + T2), b := s.a, c := s.b, d := s.c,
        e := w32 (s.d + T1), f := s.e, g := s.f, h := s.g }) s0
  { a := w32 (s0.a + fin.a), b := w32 (s0.b + fin.b), c := w32 (s0.c + fin.c),
    d := w32 (s0.d + fin.d), e := w32 (s0.e + fin.e), f := w32 (s0.f + fin.f),
    g := w32 (s0.g + fin.g), h := w32 (s0.h + fin.h) }

/-- Digest serialisation: the eight state words, big-endian (32 bytes). -/
def digestBytes (s : Sha256State) : List Nat :=
  be32 s.a ++ be32 s.b ++ be32 s.c ++ be32 s.d ++ be32 s.e ++ be32 s.f ++ be32 s.g ++ be32 s.h

/-- SHA-256 of a byte list. -/
def sha256 (msg : List Nat) : List Nat :=
  digestBytes ((chunks64 (sha256Pad msg)).foldl compressBlock sha256Start)

/-! ## HMAC-SHA-256 (RFC 2104) and PBKDF2 (RFC 8018) -/

/-- HMAC-SHA-256 with the usual 64-byte block, ipad 0x36 and opad 0x5c. -/
def hmacSha256 (key msg : List Nat) : List Nat :=
  let k0 := if 64 < key.length then sha256 key else key
  let kp := k0 ++ List.replicate (64 - k0.length) 0
  sha256 (kp.map (fun b => b ^^^ 92) ++ sha256 (kp.map (fun b => b ^^^ 54) ++ msg))

/-- Iterates U of PBKDF2 block 1: `pbkdf2U pw salt i` is U_(i+1), so
U_1 = HMAC(pw, salt ++ INT(1)) and U_(i+2) = HMAC(pw, U_(i+1)). -/
def pbkdf2U (pw salt : List Nat) : Nat → List Nat
  | 0 => hmacSha256 pw (salt ++ [0, 0, 0, 1])
  | i + 1 => hmacSha256 pw (pbkdf2U pw salt i)

/-- XOR accumulation F = U_1 xor ... xor U_c of PBKDF2 block 1. -/
def pbkdf2F (pw salt : List Nat) : Nat → List Nat
  | 0 => []
  | 1 => pbkdf2U pw salt 0
  | c + 2 => List.zipWith Nat.xor (pbkdf2F pw salt (c + 1)) (pbkdf2U pw salt (c + 1))

/-- PBKDF2-HMAC-SHA-256 with the default derived-key length of one SHA-256
block (32 bytes), exactly what `hashlib.pbkdf2_hmac('sha256', pw, salt, c)`
returns. -/
def pbkdf2HmacSha256 (pw salt : List Nat) (c : Nat) : List Nat :=
  pbkdf2F pw salt c

/-! ## Byte/string conversions -/

/-- Hexadecimal digits, as produced by Python's `bytes.hex()`. -/
def hexChars : List Char :=
  ("0123456789abcdef").data

/-- Two lowercase hex characters of one byte. -/
def byteToHex (b : Nat) : List Char :=
  [hexChars.getD (b / 16 % 16) '0', hexChars.getD (b % 16) '0']

/-- Lowercase hex string of a byte list (Python's `bytes.hex()`). -/
def bytesToHex (bs : List Nat) : String :=
  String.mk (bs.flatMap byteToHex)

/-- UTF-8 encoding of one character (Python's `str.encode('utf-8')`). -/
def utf8Bytes (ch : Char) : List Nat :=
  let n := ch.toNat
  if n < 128 then [n]
  else if n < 2048 then [192 + n / 64, 128 + n % 64]
  else if n < 65536 then [224 + n / 4096, 128 + n / 64 % 64, 128 + n % 64]
  else [240 + n / 262144, 128 + n / 4096 % 64, 128 + n / 64 % 64, 128 + n % 64]

/-- UTF-8 bytes of a string. -/
def strUtf8 (s : String) : List Nat :=
  s.data.flatMap utf8Bytes

/-! ## hash_password (server.py lines 48-57) -/

/-- Embedding of `hash_password(password, salt=None)` (server.py lines
48-57).  When `salt` is absent the Python code draws `secrets.token_hex(16)`;
that ambient random draw is the explicit `tokenHex` argument here (it is
ignored when a salt is supplied, exactly as in the source).  Returns
`(password_hash, salt)` where the hash is the lowercase hex encoding of
PBKDF2-HMAC-SHA-256 over the UTF-8 bytes of the password and salt with
100000 iterations. -/
def hash_password (password : String) (salt : Option String) (tokenHex : String) :
    String × String :=
  let s := salt.getD tokenHex
  (bytesToHex (pbkdf2HmacSha256 (strUtf8 password) (strUtf8 s) 100000), s)

/-! ## Validators (server.py lines 60-84)

Python regex notes.  `re.match(p, s)` anchors `p` at the start of `s`;
the `$` at the end of both validator patterns matches at the end of the
string or just before one final newline.  Since neither character class
below contains a newline, `re.match(r'^[cls]+$', s)` holds exactly when
`s`, after removal of at most one trailing newline, is nonempty and
drawn entirely from the class.  Lengths (`len` in Python, `String.length`
here) both count Unicode code points. -/

/-- Character class `[a-zA-Z0-9_]` of the username pattern. -/
def isWordChar (ch : Char) : Bool :=
  ('a' ≤ ch && ch ≤ 'z') || ('A' ≤ ch && ch ≤ 'Z') || ('0' ≤ ch && ch ≤ '9') || ch = '_'

/-- Character class `[A-Z]`. -/
def isAsciiUpper (ch : Char) : Bool := 'A' ≤ ch && ch ≤ 'Z'

/-- Character class `[a-z]`. -/
def isAsciiLower (ch : Char) : Bool := 'a' ≤ ch && ch ≤ 'z'

/-- Character class `[0-9]`. -/
def isAsciiDigit (ch : Char) : Bool := '0' ≤ ch && ch ≤ '9'

/-- Character class `[A-Za-z0-9]`. -/
def isAsciiAlphaNum (ch : Char) : Bool :=
  isAsciiUpper ch || isAsciiLower ch || isAsciiDigit ch

/-- Character class `[a-zA-Z]` of the TLD part of the email pattern. -/
def isAsciiAlpha (ch : Char) : Bool := isAsciiUpper ch || isAsciiLower ch

/-- Character class `[a-zA-Z0-9._%+-]` of the local part of the email pattern. -/
def isLocalChar (ch : Char) : Bool :=
  isAsciiAlphaNum ch || ch = '.' || ch = '_' || ch = '%' || ch = '+' || ch = '-'

/-- Character class `[a-zA-Z0-9.-]` of the domain part of the email pattern. -/
def isDomainChar (ch : Char) : Bool := isAsciiAlphaNum ch || ch = '.' || ch = '-'

/-- Removal of the single trailing newline that Python's `$` tolerates. -/
def stripFinalNewline (cs : List Char) : List Char :=
  if cs.getLast? = some '\n' then cs.dropLast else cs

/-- Semantics of `re.match(r'^[a-zA-Z0-9_]+$', s)`: after the `$` newline
allowance, a nonempty all-word-character string. -/
def usernameRegex (s : String) : Bool :=
  let cs := stripFinalNewline s.data
  !cs.isEmpty && cs.all isWordChar

/-- Semantics of `[a-zA-Z0-9.-]+\.[a-zA-Z]{2,}` against a whole character
list: some split yields a nonempty all-domain-character part, a literal
dot, and at least two ASCII letters. -/
def emailTail (cs : List Char) : Bool :=
  (List.range cs.length).any fun j =>
    decide (1 ≤ j) && (cs.take j).all isDomainChar &&
      match cs.drop j with
      | '.' :: tld => decide (2 ≤ tld.length) && tld.all isAsciiAlpha
      | _ => false

/-- Semantics of `re.match(r'^[a-zA-Z0-9._%+-]+@[a-zA-Z0-9.-]+\.[a-zA-Z]{2,}$', s)`
by search over every decomposition (regex matching of a concatenation is
exactly the existence of such a split). -/
def emailRegex (s : String) : Bool :=
  let cs := stripFinalNewline s.data
  (List.range cs.length).any fun i =>
    decide (1 ≤ i) && (cs.take i).all isLocalChar &&
      match cs.drop i with
      | '@' :: rest => emailTail rest
      | _ => false

/-- Embedding of `validate_username` (server.py lines 60-65). -/
def validate_username (username : String) : Bool × String :=
  if username.length < 3 || 20 < username.length then
    (false, "Username must be 3-20 characters")
  else if usernameRegex username = false then
    (false, "Username can only contain letters, numbers, and underscores")
  else (true, "")

/-- Embedding of `validate_email` (server.py lines 67-71). -/
def validate_email (email : String) : Bool × String :=
  if emailRegex email = false then (false, "Invalid email format") else (true, "")

/-- Embedding of `validate_password` (server.py lines 73-84).  The four
`re.search` calls look for one character of the class anywhere in the
string, so they are `List.any` over the characters. -/
def validate_password (password : String) : Bool × String :=
  if password.length < 8 then
    (false, "Password must be at least 8 characters")
  else if password.data.any isAsciiUpper = false then
    (false, "Password must contain at least one uppercase letter")
  else if password.data.any isAsciiLower = false then
    (false, "Password must contain at least one lowercase letter")
  else if password.data.any isAsciiDigit = false then
    (false, "Password must contain at least one number")
  else if password.data.any (fun ch => !isAsciiAlphaNum ch) = false then
    (false, "Password must contain at least one special character")
  else (true, "")

/-! ## Data model (server.py lines 14-45)

Rows of the two tables created by `init_db`.  `mood` and `last_login` are
nullable; `created_at` defaults to the current timestamp (a day number
here, see the header). -/

/-- Row of the `users` table (server.py lines 19-31). -/
structure User where
  id : Nat
  username : String
  email : String
  password_hash : String
  password_salt : String
  mood : Option String
  agreed_to_terms : Bool
  created_at : Nat
  last_login : Option Nat
deriving Repr, DecidableEq

/-- Row of the `login_attempts` table (server.py lines 34-42).  No route of
server.py ever inserts, updates or deletes such a row. -/
structure LoginAttempt where
  id : Nat
  email : String
  attempt_time : Nat
  success : Bool
  ip_address : Option String
deriving Repr, DecidableEq

/-- State of `users.db`. -/
structure DB where
  users : List User
  login_attempts : List LoginAttempt
deriving Repr, DecidableEq

/-- Freshly initialised database (`init_db`, server.py lines 14-45). -/
def initDB : DB := { users := [], login_attempts := [] }

/-- Error responses of `/api/signup` (server.py lines 100-135 and 179):
the 400 validation messages, the 400 terms message, the two 409 conflict
messages, and the catch-all 500. -/
inductive SignupErr where
  | validationError (msg : String)
  | termsNotAccepted
  | duplicateUsername
  | duplicateEmail
  | internalError
deriving Repr, DecidableEq

/-- Error responses of `/api/verify` (server.py lines 233 and 242):
404 `User not found` and 401 `Invalid password`. -/
inductive VerifyErr where
  | userNotFound
  | invalidCredentials
deriving Repr, DecidableEq

/-- Payload of a 201 signup response (server.py lines 169-175). -/
structure SignupOk where
  id : Nat
  username : String
  email : String
  mood : Option String
  created_at : Nat
deriving Repr, DecidableEq

/-- Payload of a 200 verify response (server.py lines 257-261). -/
structure VerifyOk where
  id : Nat
  username : String
  email : String
deriving Repr, DecidableEq

/-- Payload of `/api/stats` (server.py lines 299-303). -/
structure Stats where
  total_users : Nat
  recent_signups : Nat
  mood_distribution : List (String × Nat)
deriving Repr, DecidableEq

/-! ## Operations (server.py lines 91-306) -/

/-- SQLite `INTEGER PRIMARY KEY AUTOINCREMENT` id of the next inserted row:
one more than the largest id in use (no row of this app is ever deleted,
so the max-id rule coincides with the sequence table). -/
def nextUserId (users : List User) : Nat :=
  users.foldr (fun u m => max u.id m) 0 + 1

/-- Row inserted by the `INSERT INTO users` of signup (server.py lines
141-151): fresh hash and salt from `hash_password(data['password'])`,
`agreed_to_terms` stored as `True`, `created_at` defaulted to now,
`last_login` NULL. -/
def newUserOf (db : DB) (username email password : String) (mood : Option String)
    (tokenHex : String) (now : Nat) : User :=
  { id := nextUserId db.users, username := username, email := email,
    password_hash := (hash_password password none tokenHex).1,
    password_salt := (hash_password password none tokenHex).2,
    mood := mood, agreed_to_terms := true, created_at := now, last_login := none }

/-- Embedding of the `/api/signup` handler `signup` (server.py lines
91-179), after JSON field extraction (all four required fields present and
of string/bool shape; the missing-field 400s of lines 97-100 are the
out-of-scope HTTP layer).  `tokenHex` is the `secrets.token_hex(16)` draw
and `now` the current day.  Returns the final database plus either the
201 user payload or the error response. -/
def signup (db : DB) (username email password : String) (mood : Option String)
    (agreed_to_terms : Bool) (tokenHex : String) (now : Nat) :
    DB × Except SignupErr SignupOk :=
  if (validate_username username).1 = false then
    (db, .error (.validationError (validate_username username).2))
  else if (validate_email email).1 = false then
    (db, .error (.validationError (validate_email email).2))
  else if (validate_password password).1 = false then
    (db, .error (.validationError (validate_password password).2))
  else if agreed_to_terms = false then
    (db, .error .termsNotAccepted)
  else if db.users.any (fun u => decide (u.username = username)) then
    (db, .error .duplicateUsername)
  else if db.users.any (fun u => decide (u.email = email)) then
    (db, .error .duplicateEmail)
  else
    let newUser := newUserOf db username email password mood tokenHex now
    let db' : DB := { db with users := db.users ++ [newUser] }
    match db'.users.find? (fun u => decide (u.id = newUser.id)) with
    | some created =>
        (db', .ok { id := created.id, username := created.username,
                    email := created.email, mood := created.mood,
                    created_at := created.created_at })
    | none => (db', .error .internalError)

/-- UPDATE of `last_login` run by a successful verify (server.py lines
245-249): set `last_login = CURRENT_TIMESTAMP` on the row with this id. -/
def setLastLogin (uid now : Nat) (u : User) : User :=
  if u.id = uid then { u with last_login := some now } else u

/-- Embedding of the `/api/verify` handler `verify_login` (server.py lines
211-265), after JSON extraction.  `SELECT ... WHERE email = ?` with
`fetchone()` is `List.find?`; the recomputed hash uses the stored salt, so
the `secrets` draw inside `hash_password` is never taken (the third
argument is irrelevant and passed as the empty string). -/
def verify_login (db : DB) (email password : String) (now : Nat) :
    DB × Except VerifyErr VerifyOk :=
  match db.users.find? (fun u => decide (u.email = email)) with
  | none => (db, .error .userNotFound)
  | some user =>
      if (hash_password password (some user.password_salt) "").1 ≠ user.password_hash then
        (db, .error .invalidCredentials)
      else
        ({ db with users := db.users.map (setLastLogin user.id now) },
         .ok { id := user.id, username := user.username, email := user.email })

/-- Embedding of the `/api/stats` handler `get_stats` (server.py lines
267-306).  `GROUP BY mood` over non-NULL moods groups the distinct mood
values with their row counts; `ORDER BY count DESC` sorts the pairs by
descending count; `date(created_at) >= date('now', '-7 days')` is the
day-granular window check. -/
def get_stats (db : DB) (today : Nat) : Stats :=
  let moods := (db.users.filterMap (fun u => u.mood)).dedup
  let moodPairs := moods.map fun m =>
    (m, db.users.countP (fun u => decide (u.mood = some m)))
  { total_users := db.users.length,
    recent_signups := db.users.countP (fun u => decide (today ≤ u.created_at + 7)),
    mood_distribution := moodPairs.mergeSort (fun a b => decide (b.2 ≤ a.2)) }

/-! ## Reachability (the operations as a transition system)

The four routes are the only writers/readers of `users.db`; `get_users`
and `get_stats` only read (every statement they run is a SELECT), so they
are identity steps on the database. -/

/-- One handler call, as a relation on database states. -/
inductive Step : DB → DB → Prop where
  | signup_call (db : DB) (username email password : String) (mood : Option String)
      (agreed : Bool) (tokenHex : String) (now : Nat) :
      Step db (signup db username email password mood agreed tokenHex now).1
  | verify_call (db : DB) (email password : String) (now : Nat) :
      Step db (verify_login db email password now).1
  | users_call (db : DB) : Step db db
  | stats_call (db : DB) : Step db db

/-- Database states reachable from a fresh `init_db` by handler calls. -/
inductive Reachable : DB → Prop where
  | start : Reachable initDB
  | step {db db' : DB} : Reachable db → Step db db' → Reachable db'

/-- Equality of every `users` column except `last_login`. -/
def SameExceptLastLogin (u v : User) : Prop :=
  v.id = u.id ∧ v.username = u.username ∧ v.email = u.email ∧
    v.password_hash = u.password_hash ∧ v.password_salt = u.password_salt ∧
    v.mood = u.mood ∧ v.agreed_to_terms = u.agreed_to_terms ∧ v.created_at = u.created_at

/-- Global uniqueness of usernames and of emails. -/
def UniqueCreds (db : DB) : Prop :=
  db.users.Pairwise (fun u v => u.username ≠ v.username ∧ u.email ≠ v.email)

/-! ## Concrete fixtures used by the witnesses -/

/-- Stored row of a registered user (hash and salt as signup stores them). -/
def alice : User :=
  { id := 1, username := "alice_1", email := "a@b.com",
    password_hash := (hash_password "Abcdef1!" (some "saltsalt") "").1,
    password_salt := "saltsalt", mood := some "happy", agreed_to_terms := true,
    created_at := 5, last_login := none }

/-- One-user database. -/
def db1 : DB := { users := [alice], login_attempts := [] }

/-- Three-user database (dummy hash fields; `get_stats` never reads them). -/
def statsDB : DB :=
  { users :=
      [{ id := 1, username := "u_one", email := "one@x.co", password_hash := "h1",
         password_salt := "s1", mood := some "happy", agreed_to_terms := true,
         created_at := 90, last_login := none },
       { id := 2, username := "u_two", email := "two@x.co", password_hash := "h2",
         password_salt := "s2", mood := none, agreed_to_terms := true,
         created_at := 99, last_login := none },
       { id := 3, username := "u_three", email := "three@x.co", password_hash := "h3",
         password_salt := "s3", mood := some "happy", agreed_to_terms := true,
         created_at := 100, last_login := some 100 }],
    login_attempts := [] }

/-- Strings that look like a SHA-256 hex digest: 64 characters, all hex. -/
def IsHexOutput (s : String) : Prop :=
  s.length = 64 ∧ ∀ ch ∈ s.data, ch ∈ hexChars

/-! ## Helper lemmas -/

lemma find?_append_of_none {α : Type} (p : α → Bool) (l₁ l₂ : List α)
    (h : ∀ a ∈ l₁, p a = false) : (l₁ ++ l₂).find? p = l₂.find? p := by
  rw [List.find?_append, List.find?_eq_none.mpr (fun x hx => by simp [h x hx])]
  rfl

lemma le_foldr_max_id (users : List User) : ∀ u ∈ users, u.id ≤ users.foldr (fun u m => max u.id m) 0 := by
  induction users with
  | nil => intro u hu; cases hu
  | cons v vs ih =>
      intro u hu
      rcases List.mem_cons.mp hu with h | h
      · subst h; exact le_max_left _ _
      · exact le_trans (ih u h) (le_max_right _ _)

lemma id_lt_nextUserId (users : List User) : ∀ u ∈ users, u.id < nextUserId users := by
  intro u hu
  have := le_foldr_max_id users u hu
  unfold nextUserId
  omega

lemma signup_success_eq (db : DB) (username email password : String) (mood : Option String)
    (tokenHex : String) (now : Nat)
    (h1 : (validate_username username).1 = true)
    (h2 : (validate_email email).1 = true)
    (h3 : (validate_password password).1 = true)
    (h5 : db.users.any (fun u => decide (u.username = username)) = false)
    (h6 : db.users.any (fun u => decide (u.email = email)) = false) :
    signup db username email password mood true tokenHex now =
      ({ db with users := db.users ++ [newUserOf db username email password mood tokenHex now] },
       .ok { id := nextUserId db.users, username := username, email := email,
             mood := mood, created_at := now }) := by
  have hfind :
      (db.users ++ [newUserOf db username email password mood tokenHex now]).find?
          (fun u => decide (u.id = (newUserOf db username email password mood tokenHex now).id)) =
        some (newUserOf db username email password mood tokenHex now) := by
    rw [find?_append_of_none]
    · simp [List.find?, newUserOf]
    · intro a ha
      have := id_lt_nextUserId db.users a ha
      simp only [decide_eq_false_iff_not, newUserOf]
      omega
  unfold signup
  simp only [h1, h2, h3, h5, h6, Bool.true_eq_false, Bool.false_eq_true, if_false, if_true]
  rw [hfind]
  simp [newUserOf]

lemma signup_ok_guards (db : DB) (username email password : String) (mood : Option String)
    (agreed : Bool) (tokenHex : String) (now : Nat) (db' : DB) (pub : SignupOk)
    (h : signup db username email password mood agreed tokenHex now = (db', .ok pub)) :
    (validate_username username).1 = true ∧ (validate_email email).1 = true ∧
    (validate_password password).1 = true ∧ agreed = true ∧
    db.users.any (fun u => decide (u.username = username)) = false ∧
    db.users.any (fun u => decide (u.email = email)) = false := by
  by_cases h1 : (validate_username username).1 = false
  · unfold signup at h; rw [if_pos h1] at h; simp at h
  by_cases h2 : (validate_email email).1 = false
  · unfold signup at h; rw [if_neg h1, if_pos h2] at h; simp at h
  by_cases h3 : (validate_password password).1 = false
  · unfold signup at h; rw [if_neg h1, if_neg h2, if_pos h3] at h; simp at h
  by_cases h4 : agreed = false
  · unfold signup at h; rw [if_neg h1, if_neg h2, if_neg h3, if_pos h4] at h; simp at h
  by_cases h5 : db.users.any (fun u => decide (u.username = username)) = true
  · unfold signup at h
    rw [if_neg h1, if_neg h2, if_neg h3, if_neg h4, if_pos h5] at h; simp at h
  by_cases h6 : db.users.any (fun u => decide (u.email = email)) = true
  · unfold signup at h
    rw [if_neg h1, if_neg h2, if_neg h3, if_neg h4, if_neg h5, if_pos h6] at h; simp at h
  simp only [Bool.not_eq_false] at h1 h2 h3
  simp only [Bool.not_eq_false] at h4
  simp only [Bool.not_eq_true] at h5 h6
  exact ⟨h1, h2, h3, h4, h5, h6⟩

lemma find_new_by_email (db : DB) (username email password : String) (mood : Option String)
    (tokenHex : String) (now : Nat)
    (h6 : db.users.any (fun u => decide (u.email = email)) = false) :
    (db.users ++ [newUserOf db username email password mood tokenHex now]).find?
        (fun u => decide (u.email = email)) =
      some (newUserOf db username email password mood tokenHex now) := by
  rw [find?_append_of_none]
  · simp [List.find?, newUserOf]
  · intro a ha
    simpa using List.any_eq_false.mp h6 a ha

/-- C1: a registration that succeeds with inputs (username, email, password,
mood, agreed_to_terms) is followed by a successful `verify` on the same
email and password, returning the same id, username and email that the
registration returned. -/
theorem register_then_verify_roundtrip
    (db : DB) (username email password : String) (mood : Option String)
    (agreed : Bool) (tokenHex : String) (now now' : Nat) (db' : DB) (pub : SignupOk)
    (h : signup db username email password mood agreed tokenHex now = (db', .ok pub)) :
    (verify_login db' email password now').2 =
      .ok { id := pub.id, username := pub.username, email := pub.email } := by
  obtain ⟨h1, h2, h3, h4, h5, h6⟩ :=
    signup_ok_guards db username email password mood agreed tokenHex now db' pub h
  subst h4
  rw [signup_success_eq db username email password mood tokenHex now h1 h2 h3 h5 h6] at h
  have hdb : db' = { db with users := db.users ++ [newUserOf db username email password mood tokenHex now] } :=
    (congrArg Prod.fst h).symm
  have hpub : pub = { id := nextUserId db.users, username := username,
                      email := email, mood := mood, created_at := now } := by
    have := congrArg Prod.snd h
    simpa using this.symm
  subst hdb; subst hpub
  unfold verify_login
  rw [show ({ db with users := db.users ++ [newUserOf db username email password mood tokenHex now] } : DB).users =
        db.users ++ [newUserOf db username email password mood tokenHex now] from rfl,
     find_new_by_email db username email password mood tokenHex now h6]
  have hhash : (hash_password password (some ((hash_password password none tokenHex).2)) "").1 =
      (hash_password password none tokenHex).1 := rfl
  simp [newUserOf, hhash]

theorem register_then_verify_roundtrip_witness :
    (verify_login (signup initDB "alice_1" "a@b.com" "Abcdef1!" (some "happy") true "ab12" 5).1
        "a@b.com" "Abcdef1!" 9).2 =
      .ok { id := 1, username := "alice_1", email := "a@b.com" } :=
  register_then_verify_roundtrip initDB "alice_1" "a@b.com" "Abcdef1!" (some "happy") true "ab12" 5 9
    (signup initDB "alice_1" "a@b.com" "Abcdef1!" (some "happy") true "ab12" 5).1
    { id := 1, username := "alice_1", email := "a@b.com", mood := some "happy", created_at := 5 }
    rfl

lemma verify_login_notfound (db : DB) (email password : String) (now : Nat)
    (hfind : db.users.find? (fun u => decide (u.email = email)) = none) :
    verify_login db email password now = (db, .error .userNotFound) := by
  unfold verify_login
  rw [hfind]

lemma verify_login_found (db : DB) (email password : String) (now : Nat) (usr : User)
    (hfind : db.users.find? (fun u => decide (u.email = email)) = some usr) :
    verify_login db email password now =
      if (hash_password password (some usr.password_salt) "").1 ≠ usr.password_hash then
        (db, .error .invalidCredentials)
      else
        ({ db with users := db.users.map (setLastLogin usr.id now) },
         .ok { id := usr.id, username := usr.username, email := usr.email }) := by
  unfold verify_login
  rw [hfind]

/-- C2: `verify` fails with UserNotFound exactly when no stored user has the
given email; otherwise, for the user row fetched by email, it fails with
InvalidCredentials exactly when the hash of the given password under the
stored salt differs from the stored hash; and on a hash match it sets that
last_login of that user to the current time and returns the public fields id,
username and email. -/
theorem verify_login_spec (db : DB) (email password : String) (now : Nat) :
    ((verify_login db email password now).2 = .error .userNotFound ↔
      ∀ u ∈ db.users, u.email ≠ email) ∧
    (∀ usr, db.users.find? (fun u => decide (u.email = email)) = some usr →
      (((verify_login db email password now).2 = .error .invalidCredentials ↔
          (hash_password password (some usr.password_salt) "").1 ≠ usr.password_hash) ∧
        ((hash_password password (some usr.password_salt) "").1 = usr.password_hash →
          verify_login db email password now =
            ({ db with users := db.users.map (setLastLogin usr.id now) },
             .ok { id := usr.id, username := usr.username, email := usr.email })))) := by
  refine ⟨?_, ?_⟩
  · cases hfind : db.users.find? (fun u => decide (u.email = email)) with
    | none =>
        rw [verify_login_notfound db email password now hfind]
        constructor
        · intro _ u hu
          simpa using List.find?_eq_none.mp hfind u hu
        · intro _; rfl
    | some usr' =>
        have hmem : usr' ∈ db.users := List.mem_of_find?_eq_some hfind
        have hp : usr'.email = email := by simpa using List.find?_some hfind
        rw [verify_login_found db email password now usr' hfind]
        constructor
        · intro hres
          by_cases hh : (hash_password password (some usr'.password_salt) "").1 = usr'.password_hash
          · rw [if_neg (not_not_intro hh)] at hres
            simp at hres
          · rw [if_pos hh] at hres
            simp at hres
        · intro hall
          exact absurd hp (hall usr' hmem)
  · intro usr h
    rw [verify_login_found db email password now usr h]
    by_cases hh : (hash_password password (some usr.password_salt) "").1 = usr.password_hash
    · rw [if_neg (not_not_intro hh)]
      refine ⟨by simp [hh], fun _ => rfl⟩
    · rw [if_pos hh]
      refine ⟨by simp [hh], fun hcontra => absurd hcontra hh⟩

theorem verify_login_spec_witness :
    verify_login db1 "a@b.com" "Abcdef1!" 9 =
      ({ db1 with users := db1.users.map (setLastLogin 1 9) },
       .ok { id := 1, username := "alice_1", email := "a@b.com" }) :=
  ((verify_login_spec db1 "a@b.com" "Abcdef1!" 9).2 alice rfl).2 rfl

lemma signup_fst_cases (db : DB) (username email password : String) (mood : Option String)
    (agreed : Bool) (tokenHex : String) (now : Nat) :
    (signup db username email password mood agreed tokenHex now).1 = db ∨
    (signup db username email password mood agreed tokenHex now).1 =
      { db with users := db.users ++ [newUserOf db username email password mood tokenHex now] } := by
  by_cases h1 : (validate_username username).1 = false
  · left; unfold signup; rw [if_pos h1]
  by_cases h2 : (validate_email email).1 = false
  · left; unfold signup; rw [if_neg h1, if_pos h2]
  by_cases h3 : (validate_password password).1 = false
  · left; unfold signup; rw [if_neg h1, if_neg h2, if_pos h3]
  by_cases h4 : agreed = false
  · left; unfold signup; rw [if_neg h1, if_neg h2, if_neg h3, if_pos h4]
  by_cases h5 : db.users.any (fun u => decide (u.username = username)) = true
  · left; unfold signup; rw [if_neg h1, if_neg h2, if_neg h3, if_neg h4, if_pos h5]
  by_cases h6 : db.users.any (fun u => decide (u.email = email)) = true
  · left; unfold signup; rw [if_neg h1, if_neg h2, if_neg h3, if_neg h4, if_neg h5, if_pos h6]
  right
  have h4' : agreed = true := by simpa using h4
  subst h4'
  rw [signup_success_eq db username email password mood tokenHex now (by simpa using h1)
    (by simpa using h2) (by simpa using h3) (by simpa using h5) (by simpa using h6)]

lemma verify_fst_cases (db : DB) (email password : String) (now : Nat) :
    (verify_login db email password now).1 = db ∨
    ∃ usr, db.users.find? (fun u => decide (u.email = email)) = some usr ∧
      (verify_login db email password now).1 =
        { db with users := db.users.map (setLastLogin usr.id now) } := by
  cases hfind : db.users.find? (fun u => decide (u.email = email)) with
  | none =>
      left
      rw [verify_login_notfound db email password now hfind]
  | some usr =>
      rw [verify_login_found db email password now usr hfind]
      by_cases hh : (hash_password password (some usr.password_salt) "").1 = usr.password_hash
      · rw [if_neg (not_not_intro hh)]
        right
        exact ⟨usr, rfl, rfl⟩
      · rw [if_pos hh]
        left
        rfl

/-- C10: a failed verification (UserNotFound or InvalidCredentials) leaves
the database exactly as it was; in particular no last_login changes. -/
theorem verify_failure_frame (db : DB) (email password : String) (now : Nat) (err : VerifyErr)
    (h : (verify_login db email password now).2 = .error err) :
    (verify_login db email password now).1 = db := by
  cases hfind : db.users.find? (fun u => decide (u.email = email)) with
  | none =>
      rw [verify_login_notfound db email password now hfind]
  | some usr =>
      rw [verify_login_found db email password now usr hfind] at h ⊢
      by_cases hh : (hash_password password (some usr.password_salt) "").1 = usr.password_hash
      · rw [if_neg (not_not_intro hh)] at h
        simp at h
      · rw [if_pos hh]

theorem verify_failure_frame_witness :
    (verify_login initDB "a@b.com" "wrong" 0).1 = initDB :=
  verify_failure_frame initDB "a@b.com" "wrong" 0 .userNotFound rfl

/-- C8 counterexample: a verify call that creates no LoginAttempt record.
On the fresh database the call runs to the UserNotFound outcome and the
login_attempts table is as empty after the call as before it, refuting
that every call to verify appends a LoginAttempt row. -/
theorem verify_writes_no_login_attempt :
    (verify_login initDB "a@b.com" "pw" 0).2 = .error .userNotFound ∧
    (verify_login initDB "a@b.com" "pw" 0).1.login_attempts = initDB.login_attempts ∧
    initDB.login_attempts.length = 0 :=
  ⟨rfl, rfl, rfl⟩

/-- C8 amended: no handler ever writes the login_attempts table: verify
leaves it unchanged on every outcome and so does signup, so LoginAttempt
rows are never created, mutated or deleted (append-only holds vacuously). -/
theorem login_attempts_never_written (db : DB) (e p username email password : String)
    (mood : Option String) (agreed : Bool) (tokenHex : String) (now now2 : Nat) :
    (verify_login db e p now).1.login_attempts = db.login_attempts ∧
    (signup db username email password mood agreed tokenHex now2).1.login_attempts =
      db.login_attempts := by
  constructor
  · rcases verify_fst_cases db e p now with h | ⟨usr, _, h⟩ <;> rw [h]
  · rcases signup_fst_cases db username email password mood agreed tokenHex now2 with h | h <;>
      rw [h]

/-- C4: signup rejects in this order: a ValidationError carrying the message
of the first failing Validator check (username, then email, then password);
then TermsNotAccepted when agreed_to_terms is false; then DuplicateUsername
when the exact username is already stored — even when the email also
collides — and DuplicateEmail only when the username is fresh and the exact
email is already stored. -/
theorem signup_error_order (db : DB) (username email password : String) (mood : Option String)
    (agreed : Bool) (tokenHex : String) (now : Nat) :
    ((validate_username username).1 = false →
      signup db username email password mood agreed tokenHex now =
        (db, .error (.validationError (validate_username username).2))) ∧
    ((validate_username username).1 = true → (validate_email email).1 = false →
      signup db username email password mood agreed tokenHex now =
        (db, .error (.validationError (validate_email email).2))) ∧
    ((validate_username username).1 = true → (validate_email email).1 = true →
      (validate_password password).1 = false →
      signup db username email password mood agreed tokenHex now =
        (db, .error (.validationError (validate_password password).2))) ∧
    ((validate_username username).1 = true → (validate_email email).1 = true →
      (validate_password password).1 = true → agreed = false →
      signup db username email password mood agreed tokenHex now =
        (db, .error .termsNotAccepted)) ∧
    ((validate_username username).1 = true → (validate_email email).1 = true →
      (validate_password password).1 = true → agreed = true →
      db.users.any (fun u => decide (u.username = username)) = true →
      signup db username email password mood agreed tokenHex now =
        (db, .error .duplicateUsername)) ∧
    ((validate_username username).1 = true → (validate_email email).1 = true →
      (validate_password password).1 = true → agreed = true →
      db.users.any (fun u => decide (u.username = username)) = false →
      db.users.any (fun u => decide (u.email = email)) = true →
      signup db username email password mood agreed tokenHex now =
        (db, .error .duplicateEmail)) := by
  refine ⟨?_, ?_, ?_, ?_, ?_, ?_⟩
  · intro h1
    unfold signup
    rw [if_pos h1]
  · intro h1 h2
    unfold signup
    rw [if_neg (by simp [h1]), if_pos h2]
  · intro h1 h2 h3
    unfold signup
    rw [if_neg (by simp [h1]), if_neg (by simp [h2]), if_pos h3]
  · intro h1 h2 h3 h4
    unfold signup
    rw [if_neg (by simp [h1]), if_neg (by simp [h2]), if_neg (by simp [h3]), if_pos h4]
  · intro h1 h2 h3 h4 h5
    subst h4
    unfold signup
    rw [if_neg (by simp [h1]), if_neg (by simp [h2]), if_neg (by simp [h3]),
      if_neg (by simp), if_pos h5]
  · intro h1 h2 h3 h4 h5 h6
    subst h4
    unfold signup
    rw [if_neg (by simp [h1]), if_neg (by simp [h2]), if_neg (by simp [h3]),
      if_neg (by simp), if_neg (by simp [h5]), if_pos h6]

theorem signup_error_order_witness :
    signup db1 "alice_1" "a@b.com" "Abcdef1!" (some "sad") true "tok" 7 =
      (db1, .error .duplicateUsername) :=
  (signup_error_order db1 "alice_1" "a@b.com" "Abcdef1!" (some "sad") true "tok" 7).2.2.2.2.1
    rfl rfl rfl rfl rfl

/-- C5: validate_password accepts exactly the strings of length at least 8
holding an uppercase letter, a lowercase letter, a digit and a
non-alphanumeric character; a failing string gets the message of the first
failing check in the order length, uppercase, lowercase, digit, special;
and the three documented examples behave as stated. -/
theorem validate_password_spec (s : String) :
    ((validate_password s).1 = true ↔
      (8 ≤ s.length ∧ (∃ c ∈ s.data, isAsciiUpper c = true) ∧
        (∃ c ∈ s.data, isAsciiLower c = true) ∧ (∃ c ∈ s.data, isAsciiDigit c = true) ∧
        ∃ c ∈ s.data, isAsciiAlphaNum c = false)) ∧
    (s.length < 8 → validate_password s = (false, "Password must be at least 8 characters")) ∧
    (8 ≤ s.length → (∀ c ∈ s.data, isAsciiUpper c = false) →
      validate_password s = (false, "Password must contain at least one uppercase letter")) ∧
    (8 ≤ s.length → (∃ c ∈ s.data, isAsciiUpper c = true) →
      (∀ c ∈ s.data, isAsciiLower c = false) →
      validate_password s = (false, "Password must contain at least one lowercase letter")) ∧
    (8 ≤ s.length → (∃ c ∈ s.data, isAsciiUpper c = true) →
      (∃ c ∈ s.data, isAsciiLower c = true) → (∀ c ∈ s.data, isAsciiDigit c = false) →
      validate_password s = (false, "Password must contain at least one number")) ∧
    (8 ≤ s.length → (∃ c ∈ s.data, isAsciiUpper c = true) →
      (∃ c ∈ s.data, isAsciiLower c = true) → (∃ c ∈ s.data, isAsciiDigit c = true) →
      (∀ c ∈ s.data, isAsciiAlphaNum c = true) →
      validate_password s = (false, "Password must contain at least one special character")) ∧
    validate_password "short1A" = (false, "Password must be at least 8 characters") ∧
    (validate_password "longenough").1 = false ∧
    (validate_password "LongEnough1!").1 = true := by
  refine ⟨?_, ?_, ?_, ?_, ?_, ?_, by decide, by decide, by decide⟩
  · unfold validate_password
    by_cases h1 : s.length < 8
    · rw [if_pos h1]
      simp only [Bool.false_eq_true, false_iff, not_and]
      intro h8
      omega
    · rw [if_neg h1]
      by_cases h2 : s.data.any isAsciiUpper = false
      · rw [if_pos h2]
        simp only [Bool.false_eq_true, false_iff, not_and]
        intro _ hex
        rcases hex with ⟨c, hc, hup⟩
        have := List.any_eq_false.mp h2 c hc
        simp [hup] at this
      · rw [if_neg h2]
        by_cases h3 : s.data.any isAsciiLower = false
        · rw [if_pos h3]
          simp only [Bool.false_eq_true, false_iff, not_and]
          intro _ _ hex
          rcases hex with ⟨c, hc, hlo⟩
          have := List.any_eq_false.mp h3 c hc
          simp [hlo] at this
        · rw [if_neg h3]
          by_cases h4 : s.data.any isAsciiDigit = false
          · rw [if_pos h4]
            simp only [Bool.false_eq_true, false_iff, not_and]
            intro _ _ _ hex
            rcases hex with ⟨c, hc, hdig⟩
            have := List.any_eq_false.mp h4 c hc
            simp [hdig] at this
          · rw [if_neg h4]
            by_cases h5 : s.data.any (fun ch => !isAsciiAlphaNum ch) = false
            · rw [if_pos h5]
              simp only [Bool.false_eq_true, false_iff, not_and]
              intro _ _ _ _ hex
              rcases hex with ⟨c, hc, hsp⟩
              have := List.any_eq_false.mp h5 c hc
              simp [hsp] at this
            · rw [if_neg h5]
              simp only [true_iff]
              refine ⟨by omega, ?_, ?_, ?_, ?_⟩
              · simpa using List.any_eq_true.mp (by simpa using h2)
              · simpa using List.any_eq_true.mp (by simpa using h3)
              · simpa using List.any_eq_true.mp (by simpa using h4)
              · simpa using h5
  · intro h1
    unfold validate_password
    rw [if_pos h1]
  · intro h1 h2
    unfold validate_password
    rw [if_neg (by omega), if_pos (List.any_eq_false.mpr (by simpa using h2))]
  · intro h1 h2 h3
    unfold validate_password
    rw [if_neg (by omega),
      if_neg (by simp only [List.any_eq_false]; push_neg; simpa using h2),
      if_pos (List.any_eq_false.mpr (by simpa using h3))]
  · intro h1 h2 h3 h4
    unfold validate_password
    rw [if_neg (by omega),
      if_neg (by simp only [List.any_eq_false]; push_neg; simpa using h2),
      if_neg (by simp only [List.any_eq_false]; push_neg; simpa using h3),
      if_pos (List.any_eq_false.mpr (by simpa using h4))]
  · intro h1 h2 h3 h4 h5
    unfold validate_password
    rw [if_neg (by omega),
      if_neg (by simp only [List.any_eq_false]; push_neg; simpa using h2),
      if_neg (by simp only [List.any_eq_false]; push_neg; simpa using h3),
      if_neg (by simp only [List.any_eq_false]; push_neg; simpa using h4),
      if_pos (List.any_eq_false.mpr (by intro c hc; simpa using h5 c hc))]

/-- C6 counterexample: the string of length 4 whose characters are a, b, c
and a newline is accepted by validate_username although the newline is not
an ASCII letter, digit or underscore: Python's `$` matches just before one
final newline, so `re.match(r'^[a-zA-Z0-9_]+$', 'abc\n')` succeeds. -/
theorem validate_username_accepts_trailing_newline :
    (validate_username "abc\n").1 = true ∧ ("abc\n").length = 4 ∧
    '\n' ∈ ("abc\n").data ∧ isWordChar '\n' = false := by decide

/-- C6 amended: validate_username succeeds exactly when the length of the
string is between 3 and 20 inclusive and, after dropping the single
trailing newline that Python's `$` anchor tolerates, the string is
nonempty and every remaining character is an ASCII letter, digit or
underscore; every other string fails with one of the two InvalidFormat
messages. -/
theorem validate_username_spec (s : String) :
    ((validate_username s).1 = true ↔
      (3 ≤ s.length ∧ s.length ≤ 20 ∧ stripFinalNewline s.data ≠ [] ∧
        ∀ c ∈ stripFinalNewline s.data, isWordChar c = true)) ∧
    ((validate_username s).1 = false →
      validate_username s = (false, "Username must be 3-20 characters") ∨
      validate_username s = (false, "Username can only contain letters, numbers, and underscores")) := by
  constructor
  · unfold validate_username
    by_cases h1 : s.length < 3 || 20 < s.length
    · rw [if_pos h1]
      simp only [Bool.false_eq_true, false_iff, not_and]
      intro h3 h20
      simp only [Bool.or_eq_true, decide_eq_true_eq] at h1
      omega
    · rw [if_neg h1]
      simp only [Bool.or_eq_true, decide_eq_true_eq, not_or, not_lt] at h1
      by_cases h2 : usernameRegex s = false
      · rw [if_pos h2]
        simp only [Bool.false_eq_true, false_iff, not_and]
        intro _ _ hne hall
        unfold usernameRegex at h2
        simp only [Bool.and_eq_false_iff, Bool.not_eq_false', List.isEmpty_iff,
          List.all_eq_false] at h2
        rcases h2 with h | ⟨c, hc, hcw⟩
        · exact hne h
        · have := hall c hc
          simp [this] at hcw
      · rw [if_neg h2]
        simp only [true_iff]
        refine ⟨h1.1, h1.2, ?_, ?_⟩
        · have h2' : usernameRegex s = true := by simpa using h2
          unfold usernameRegex at h2'
          simp only [Bool.and_eq_true, Bool.not_eq_true', List.isEmpty_eq_false,
            ne_eq] at h2'
          exact h2'.1
        · have h2' : usernameRegex s = true := by simpa using h2
          unfold usernameRegex at h2'
          simp only [Bool.and_eq_true, List.all_eq_true] at h2'
          exact h2'.2
  · intro hfail
    unfold validate_username at hfail ⊢
    by_cases h1 : s.length < 3 || 20 < s.length
    · rw [if_pos h1]
      left
      rfl
    · rw [if_neg h1] at hfail ⊢
      by_cases h2 : usernameRegex s = false
      · rw [if_pos h2]
        right
        rfl
      · rw [if_neg h2] at hfail
        cases hfail

lemma sameExceptLastLogin_refl (u : User) : SameExceptLastLogin u u := by
  simp [SameExceptLastLogin]

lemma setLastLogin_same (uid now : Nat) (u : User) :
    SameExceptLastLogin u (setLastLogin uid now u) := by
  unfold setLastLogin SameExceptLastLogin
  split <;> simp

lemma signup_result_cases (db : DB) (username email password : String) (mood : Option String)
    (agreed : Bool) (tokenHex : String) (now : Nat) :
    (signup db username email password mood agreed tokenHex now).1 = db ∨
    (db.users.any (fun u => decide (u.username = username)) = false ∧
      db.users.any (fun u => decide (u.email = email)) = false ∧
      (signup db username email password mood agreed tokenHex now).1 =
        { db with users := db.users ++ [newUserOf db username email password mood tokenHex now] }) := by
  by_cases h1 : (validate_username username).1 = false
  · left; unfold signup; rw [if_pos h1]
  by_cases h2 : (validate_email email).1 = false
  · left; unfold signup; rw [if_neg h1, if_pos h2]
  by_cases h3 : (validate_password password).1 = false
  · left; unfold signup; rw [if_neg h1, if_neg h2, if_pos h3]
  by_cases h4 : agreed = false
  · left; unfold signup; rw [if_neg h1, if_neg h2, if_neg h3, if_pos h4]
  by_cases h5 : db.users.any (fun u => decide (u.username = username)) = true
  · left; unfold signup; rw [if_neg h1, if_neg h2, if_neg h3, if_neg h4, if_pos h5]
  by_cases h6 : db.users.any (fun u => decide (u.email = email)) = true
  · left; unfold signup; rw [if_neg h1, if_neg h2, if_neg h3, if_neg h4, if_neg h5, if_pos h6]
  right
  have h4' : agreed = true := by simpa using h4
  subst h4'
  refine ⟨by simpa using h5, by simpa using h6, ?_⟩
  rw [signup_success_eq db username email password mood tokenHex now (by simpa using h1)
    (by simpa using h2) (by simpa using h3) (by simpa using h5) (by simpa using h6)]

/-- C9: in every database state reachable from a fresh init_db by handler
calls, no two user rows share a username and no two share an email; and
every single handler call carries every existing user row to a row of the
next state with identical id, username, email, password_hash,
password_salt, mood, agreed_to_terms and created_at (only last_login may
change, and no user row is ever deleted). -/
theorem user_rows_unique_and_immutable :
    (∀ db, Reachable db → UniqueCreds db) ∧
    (∀ db db', Step db db' →
      ∀ u ∈ db.users, ∃ u', u' ∈ db'.users ∧ SameExceptLastLogin u u') := by
  have hpres : ∀ db db', Step db db' →
      ∀ u ∈ db.users, ∃ u', u' ∈ db'.users ∧ SameExceptLastLogin u u' := by
    intro db db' hstep u hu
    cases hstep with
    | signup_call username email password mood agreed tokenHex now =>
        rcases signup_fst_cases db username email password mood agreed tokenHex now with h | h <;>
          rw [h]
        · exact ⟨u, hu, sameExceptLastLogin_refl u⟩
        · exact ⟨u, List.mem_append_left _ hu, sameExceptLastLogin_refl u⟩
    | verify_call email password now =>
        rcases verify_fst_cases db email password now with h | ⟨usr, _, h⟩ <;> rw [h]
        · exact ⟨u, hu, sameExceptLastLogin_refl u⟩
        · exact ⟨setLastLogin usr.id now u, List.mem_map_of_mem _ hu,
            setLastLogin_same usr.id now u⟩
    | users_call => exact ⟨u, hu, sameExceptLastLogin_refl u⟩
    | stats_call => exact ⟨u, hu, sameExceptLastLogin_refl u⟩
  refine ⟨?_, hpres⟩
  intro db hdb
  induction hdb with
  | start => simp [UniqueCreds, initDB]
  | @step dbx dby hr hstep ih =>
      cases hstep with
      | signup_call username email password mood agreed tokenHex now =>
          rcases signup_result_cases dbx username email password mood agreed tokenHex now with
            h | ⟨h5, h6, h⟩ <;> rw [h]
          · exact ih
          · unfold UniqueCreds at ih ⊢
            rw [List.pairwise_append]
            refine ⟨ih, List.pairwise_singleton _ _, ?_⟩
            intro a ha b hb
            have hb' : b = newUserOf dbx username email password mood tokenHex now := by
              simpa using hb
            subst hb'
            have hu := List.any_eq_false.mp h5 a ha
            have he := List.any_eq_false.mp h6 a ha
            simp only [decide_eq_true_eq] at hu he
            constructor
            · simpa [newUserOf] using hu
            · simpa [newUserOf] using he
      | verify_call email password now =>
          rcases verify_fst_cases dbx email password now with h | ⟨usr, _, h⟩ <;> rw [h]
          · exact ih
          · unfold UniqueCreds at ih ⊢
            refine List.Pairwise.map _ ?_ ih
            intro a b hab
            have ha := setLastLogin_same usr.id now a
            have hb := setLastLogin_same usr.id now b
            unfold SameExceptLastLogin at ha hb
            constructor
            · rw [ha.2.1, hb.2.1]; exact hab.1
            · rw [ha.2.2.1, hb.2.2.1]; exact hab.2
      | users_call => exact ih
      | stats_call => exact ih

theorem user_rows_unique_and_immutable_witness :
    UniqueCreds (signup initDB "alice_1" "a@b.com" "Abcdef1!" (some "happy") true "ab12" 5).1 :=
  user_rows_unique_and_immutable.1 _
    (Reachable.step Reachable.start
      (Step.signup_call initDB "alice_1" "a@b.com" "Abcdef1!" (some "happy") true "ab12" 5))

lemma countP_mood_eq_count (users : List User) (m : String) :
    users.countP (fun u => decide (u.mood = some m)) =
      (users.filterMap (fun u => u.mood)).count m := by
  induction users with
  | nil => rfl
  | cons v vs ih =>
      cases hv : v.mood with
      | none => simp [List.countP_cons, List.filterMap_cons, hv, ih]
      | some x =>
          simp [List.countP_cons, List.filterMap_cons, hv, ih, List.count_cons]

lemma mood_distribution_eq (db : DB) (today : Nat) :
    (get_stats db today).mood_distribution =
      ((db.users.filterMap (fun u => u.mood)).dedup.map fun m =>
        (m, db.users.countP (fun u => decide (u.mood = some m)))).mergeSort
        (fun a b => decide (b.2 ≤ a.2)) := rfl

/-- C7: get_stats reports the exact number of stored users, the exact
number of users whose creation day lies in the 7-day window before the
call day, and a mood distribution whose entries each name a mood held by
at least one user (null moods excluded) with its exact row count, listed
in descending order of count; those counts sum to at most the total. -/
theorem get_stats_spec (db : DB) (today : Nat) :
    (get_stats db today).total_users = db.users.length ∧
    (get_stats db today).recent_signups =
      (db.users.filter (fun u => decide (today ≤ u.created_at + 7))).length ∧
    (∀ p ∈ (get_stats db today).mood_distribution,
      (∃ u ∈ db.users, u.mood = some p.1) ∧
      p.2 = (db.users.filter (fun u => decide (u.mood = some p.1))).length) ∧
    (get_stats db today).mood_distribution.Sorted (fun a b => b.2 ≤ a.2) ∧
    ((get_stats db today).mood_distribution.map (fun p => p.2)).sum ≤ db.users.length := by
  refine ⟨rfl, List.countP_eq_length_filter _ _, ?_, ?_, ?_⟩
  · intro p hp
    rw [mood_distribution_eq] at hp
    have hp' := List.mem_mergeSort.mp hp
    obtain ⟨m, hm, hpe⟩ := List.mem_map.mp hp'
    obtain ⟨u, hu, humood⟩ := List.mem_filterMap.mp (List.mem_dedup.mp hm)
    constructor
    · exact ⟨u, hu, by rw [humood, ← hpe]⟩
    · rw [← hpe]
      exact List.countP_eq_length_filter _ _
  · rw [mood_distribution_eq]
    have hs := @List.sorted_mergeSort (String × Nat)
      (fun a b => decide (b.2 ≤ a.2))
      (fun a b c hab hbc => by
        simp only [decide_eq_true_eq] at hab hbc ⊢
        omega)
      (fun a b => by
        simp only [Bool.or_eq_true, decide_eq_true_eq]
        omega)
      ((db.users.filterMap (fun u => u.mood)).dedup.map fun m =>
        (m, db.users.countP (fun u => decide (u.mood = some m))))
    exact hs.imp (fun h => of_decide_eq_true h)
  · rw [mood_distribution_eq]
    have hperm :
        ((((db.users.filterMap (fun u => u.mood)).dedup.map fun m =>
            (m, db.users.countP (fun u => decide (u.mood = some m)))).mergeSort
            (fun a b => decide (b.2 ≤ a.2))).map (fun p => p.2)).sum =
        (((db.users.filterMap (fun u => u.mood)).dedup.map fun m =>
            (m, db.users.countP (fun u => decide (u.mood = some m)))).map
            (fun p => p.2)).sum :=
    ((List.mergeSort_perm _ _).map (fun p : String × Nat => p.2)).sum_eq
    rw [hperm, List.map_map]
    have hcongr :
        ((db.users.filterMap (fun u => u.mood)).dedup.map
          ((fun p : String × Nat => p.2) ∘ fun m =>
            (m, db.users.countP (fun u => decide (u.mood = some m))))) =
        ((db.users.filterMap (fun u => u.mood)).dedup.map
          (fun m => (db.users.filterMap (fun u => u.mood)).count m)) := by
      refine List.map_congr_left ?_
      intro m _
      exact countP_mood_eq_count db.users m
    rw [hcongr, List.sum_map_count_dedup_eq_length]
    exact List.length_filterMap_le _ _

/-! ## Shape of the hash output: a 64-character lowercase hex string -/

lemma digestBytes_length (s : Sha256State) : (digestBytes s).length = 32 := by
  simp [digestBytes, be32]

lemma sha256_length (msg : List Nat) : (sha256 msg).length = 32 :=
  digestBytes_length _

lemma hmacSha256_length (key msg : List Nat) : (hmacSha256 key msg).length = 32 :=
  sha256_length _

lemma pbkdf2U_length (pw salt : List Nat) (i : Nat) : (pbkdf2U pw salt i).length = 32 := by
  cases i with
  | zero => exact hmacSha256_length _ _
  | succ j => exact hmacSha256_length _ _

lemma pbkdf2F_succ_length (pw salt : List Nat) (c : Nat) :
    (pbkdf2F pw salt (c + 1)).length = 32 := by
  induction c with
  | zero => exact pbkdf2U_length pw salt 0
  | succ d ih =>
      show (List.zipWith Nat.xor (pbkdf2F pw salt (d + 1)) (pbkdf2U pw salt (d + 1))).length = 32
      rw [List.length_zipWith, ih, pbkdf2U_length]
      simp

lemma flatMap_byteToHex_length (bs : List Nat) :
    (bs.flatMap byteToHex).length = 2 * bs.length := by
  induction bs with
  | nil => rfl
  | cons b rest ih =>
      simp only [List.flatMap_cons, List.length_append, ih, byteToHex]
      simp
      omega

lemma hash_password_length (p : String) (salt : Option String) (e : String) :
    ((hash_password p salt e).1).length = 64 := by
  show ((pbkdf2HmacSha256 (strUtf8 p) (strUtf8 (salt.getD e)) 100000).flatMap byteToHex).length = 64
  rw [flatMap_byteToHex_length]
  have h := pbkdf2F_succ_length (strUtf8 p) (strUtf8 (salt.getD e)) 99999
  show 2 * (pbkdf2F (strUtf8 p) (strUtf8 (salt.getD e)) 100000).length = 64
  rw [show (100000 : Nat) = 99999 + 1 from rfl, h]

set_option maxRecDepth 4000 in
lemma hexChars_getD_mem : ∀ j, j < 16 → hexChars.getD j '0' ∈ hexChars := by decide

lemma byteToHex_mem (b : Nat) : ∀ ch ∈ byteToHex b, ch ∈ hexChars := by
  intro ch hch
  rcases hch with _ | ⟨_, h2⟩
  · exact hexChars_getD_mem _ (Nat.mod_lt _ (by omega))
  · rcases h2 with _ | ⟨_, h3⟩
    · exact hexChars_getD_mem _ (Nat.mod_lt _ (by omega))
    · cases h3

lemma bytesToHex_chars (bs : List Nat) : ∀ ch ∈ (bytesToHex bs).data, ch ∈ hexChars := by
  intro ch hch
  have hch2 : ch ∈ bs.flatMap byteToHex := hch
  obtain ⟨b, hb, hmem⟩ := List.mem_flatMap.mp hch2
  exact byteToHex_mem b ch hmem

lemma hash_password_fst (p : String) (salt : Option String) (e : String) :
    (hash_password p salt e).1 =
      bytesToHex (pbkdf2HmacSha256 (strUtf8 p) (strUtf8 (salt.getD e)) 100000) := rfl

lemma hash_password_chars_hex (p : String) (salt : Option String) (e : String) :
    ∀ ch ∈ ((hash_password p salt e).1).data, ch ∈ hexChars := by
  rw [hash_password_fst]
  exact bytesToHex_chars _

lemma hash_password_isHexOutput (p : String) (salt : Option String) (e : String) :
    IsHexOutput (hash_password p salt e).1 :=
  ⟨hash_password_length p salt e, hash_password_chars_hex p salt e⟩

instance hexOutput_finite : Finite { s : String // IsHexOutput s } := by
  have hlen16 : hexChars.length = 16 := rfl
  let f : { s : String // IsHexOutput s } → (Fin 64 → Fin 16) := fun s i =>
    ⟨hexChars.indexOf (s.1.data.getD i '0'),
     by
      have hlen : s.1.data.length = 64 := s.2.1
      have hi : (i : Nat) < s.1.data.length := by omega
      rw [List.getD_eq_get s.1.data '0' hi]
      have hmem := s.2.2 _ (List.get_mem s.1.data i hi)
      rw [← hlen16]
      exact List.indexOf_lt_length.mpr hmem⟩
  have hinj : Function.Injective f := by
    intro ⟨s, hs⟩ ⟨t, ht⟩ heq
    apply Subtype.ext
    show s = t
    have hsl : s.data.length = 64 := hs.1
    have htl : t.data.length = 64 := ht.1
    have hdata : s.data = t.data := by
      apply List.ext_get (by omega)
      intro n h1 h2
      have hn : n < 64 := by omega
      have hcomp := congrFun heq ⟨n, hn⟩
      simp only [f, Fin.mk.injEq] at hcomp
      have hmems : s.data.get ⟨n, h1⟩ ∈ hexChars := hs.2 _ (List.get_mem s.data n h1)
      have hmemt : t.data.get ⟨n, h2⟩ ∈ hexChars := ht.2 _ (List.get_mem t.data n h2)
      rw [List.getD_eq_get s.data '0' h1, List.getD_eq_get t.data '0' h2] at hcomp
      exact (List.indexOf_inj hmems hmemt).mp hcomp
    cases s
    cases t
    exact congrArg String.mk hdata
  exact Finite.of_injective f hinj

lemma hash_collision_exists (p : String) :
    ∃ s1 s2 : String, s1 ≠ s2 ∧
      (hash_password p (some s1) "").1 = (hash_password p (some s2) "").1 := by
  let f : Nat → { s : String // IsHexOutput s } := fun n =>
    ⟨(hash_password p (some (String.mk (List.replicate n 'a'))) "").1,
     hash_password_isHexOutput _ _ _⟩
  obtain ⟨m, n, hmn, hfeq⟩ := Finite.exists_ne_map_eq_of_infinite f
  refine ⟨String.mk (List.replicate m 'a'), String.mk (List.replicate n 'a'), ?_, ?_⟩
  · intro hcon
    apply hmn
    injection hcon with hdata
    have hlen := congrArg List.length hdata
    simpa using hlen
  · have h2 : (f m).val = (f n).val := congrArg Subtype.val hfeq
    exact h2

/-- C3 counterexample: the salting half of the claim cannot hold.  Every
hash_password output is a 64-character hex string, so the map from salts
to hashes lands in a finite set while the salts are infinitely many: for
some password there exist two distinct salts with identical hashes.  This
proves the negation of the universally quantified inequality
hash_password(p, s1) differing from hash_password(p, s2) for all s1
differing from s2. -/
theorem hash_password_salt_collision :
    ∃ p s1 s2 : String, s1 ≠ s2 ∧
      (hash_password p (some s1) "").1 = (hash_password p (some s2) "").1 := by
  obtain ⟨s1, s2, hne, heq⟩ := hash_collision_exists "pw"
  exact ⟨"pw", s1, s2, hne, heq⟩

/-- C3 amended: hash_password is deterministic — the same (password, salt)
pair always reproduces the same hash, whatever entropy the ambient
token_hex draw would supply — and its hash is always a 64-character hex
digest; because of that fixed width, distinct salts cannot always give
distinct hashes: for every password two distinct salts with equal hashes
exist. -/
theorem hash_password_deterministic_fixed_width (p s e1 e2 : String) :
    hash_password p (some s) e1 = hash_password p (some s) e2 ∧
    ((hash_password p (some s) e1).1).length = 64 ∧
    ∃ s1 s2 : String, s1 ≠ s2 ∧
      (hash_password p (some s1) "").1 = (hash_password p (some s2) "").1 :=
  ⟨rfl, hash_password_length p (some s) e1, hash_collision_exists p⟩
